import Mathlib

/-!
Shallow embedding of `afl_tipping_dashboard.py` (AFL Tipping dashboard).

The script is a straight-line pipeline: fetch games and tips from the
Squiggle API, normalise the JSON records into tabular rows, left-merge
games with tips on the game identifier, filter by round / team /
confidence, and render countdowns, upset picks and summary aggregates.

Modelling choices:
* JSON records become structures whose `Option` fields model an absent
  (or `null`) key.
* pandas `DataFrame`s of normalised rows become `List`s of row
  structures.  A tips frame built from an empty record list
  (`pd.DataFrame([])`) has no columns at all, which matters to the
  merge: it is modelled by the dedicated constructor `TipsDF.empty`.
* Numeric odds / confidence values are `Rat`, timestamps are `Int`
  seconds, and the impure `datetime.utcnow()` becomes an explicit
  `now` argument.
* Exceptions that escape a loop to a surrounding `try` are modelled
  with `Except`.
* The unreachable code after the first `return` in
  `fetch_squiggle_games` (lines 74-104 of the script) is dead and is
  not modelled.
-/

namespace AFLTipping

/-- The team-id → name dictionary produced by `get_team_name_map`. -/
abbrev TeamMap := List (Int × String)

/-- `team_map.get(team_id, str(team_id))`: resolve a team id to its name,
falling back to the id's string form. -/
def resolveTeam (tm : TeamMap) (teamId : Int) : String :=
  (tm.lookup teamId).getD (toString teamId)

/-- A raw JSON game record from the `games` endpoint.  A `none` field
models an absent key; `odds` models the nested `odds` dictionary keyed
by the string form of a team id (`game.get("odds", {})`). -/
structure RawGame where
  id : Option Int
  round : Option Int
  hteamid : Option Int
  ateamid : Option Int
  date : Option String
  venue : Option String
  complete : Option Int
  odds : List (String × Rat)
deriving DecidableEq

/-- A normalised game row as appended to `rows` in `fetch_squiggle_games`. -/
structure GameRow where
  gameId : Option Int
  round : Int
  startTime : Int
  venue : String
  homeTeam : String
  awayTeam : String
  homeTeamId : Int
  awayTeamId : Int
  homeOdds : Option Rat
  awayOdds : Option Rat
  matchPreview : String
deriving DecidableEq

/-- One decimal digit of a character, `none` when the character is not
a digit. -/
def digitVal (c : Char) : Option Nat :=
  if c.isDigit then some (c.toNat - 48) else none

/-- Two-digit decimal number. -/
def digits2 (a b : Char) : Option Nat := do
  pure ((← digitVal a) * 10 + (← digitVal b))

/-- Four-digit decimal number. -/
def digits4 (a b c d : Char) : Option Nat := do
  pure (((← digitVal a) * 10 + (← digitVal b)) * 100 + ((← digitVal c) * 10 + (← digitVal d)))

/-- Encode a validated calendar time as `Int` seconds on a simple
month/day grid.  The encoding is only used as an abstract timestamp;
no claim depends on its exact value. -/
def encodeTime (y mo d h mi s : Nat) : Int :=
  Int.ofNat ((((y * 12 + (mo - 1)) * 31 + (d - 1)) * 86400) + h * 3600 + mi * 60 + s)

/-- Model of Python's `datetime.fromisoformat` restricted to the shapes
the Squiggle API produces: `YYYY-MM-DD` optionally followed by a single
separator character and `HH:MM:SS`.  Returns `none` (the `ValueError`
case) for any other string or out-of-range field. -/
def fromisoformat (str : String) : Option Int :=
  match str.toList with
  | [y1, y2, y3, y4, '-', m1, m2, '-', d1, d2] => do
      let y ← digits4 y1 y2 y3 y4
      let mo ← digits2 m1 m2
      let d ← digits2 d1 d2
      if 1 ≤ mo ∧ mo ≤ 12 ∧ 1 ≤ d ∧ d ≤ 31 then
        pure (encodeTime y mo d 0 0 0)
      else none
  | [y1, y2, y3, y4, '-', m1, m2, '-', d1, d2, _, h1, h2, ':', n1, n2, ':', s1, s2] => do
      let y ← digits4 y1 y2 y3 y4
      let mo ← digits2 m1 m2
      let d ← digits2 d1 d2
      let h ← digits2 h1 h2
      let mi ← digits2 n1 n2
      let s ← digits2 s1 s2
      if 1 ≤ mo ∧ mo ≤ 12 ∧ 1 ≤ d ∧ d ≤ 31 ∧ h < 24 ∧ mi < 60 ∧ s < 60 then
        pure (encodeTime y mo d h mi s)
      else none
  | _ => none

/-- `all(k in game for k in ("hteamid", "ateamid", "date", "round"))`. -/
def hasGameKeys (g : RawGame) : Bool :=
  g.hteamid.isSome && g.ateamid.isSome && g.date.isSome && g.round.isSome

/-- Build one normalised row from a fully-keyed record whose date parsed
to the timestamp `t`. -/
def normalizeGame (tm : TeamMap) (g : RawGame) (hid aid rnd : Int) (t : Int) : GameRow :=
  { gameId := g.id
    round := rnd
    startTime := t
    venue := g.venue.getD "Unknown Venue"
    homeTeam := resolveTeam tm hid
    awayTeam := resolveTeam tm aid
    homeTeamId := hid
    awayTeamId := aid
    homeOdds := g.odds.lookup (toString hid)
    awayOdds := g.odds.lookup (toString aid)
    matchPreview := "No preview available." }

/-- The `for game in data` loop of `fetch_squiggle_games` at a fixed
selected round: records missing a required key or belonging to another
round are skipped with `continue`; a date that fails to parse raises
`ValueError`, modelled as `Except.error`. -/
def gameRowsLoop (tm : TeamMap) (nr : Int) : List RawGame → Except Unit (List GameRow)
  | [] => Except.ok []
  | g :: gs =>
    match g.hteamid, g.ateamid, g.date, g.round with
    | some hid, some aid, some ds, some rnd =>
      if rnd = nr then
        match fromisoformat ds with
        | none => Except.error ()
        | some t =>
          match gameRowsLoop tm nr gs with
          | Except.error e => Except.error e
          | Except.ok rest => Except.ok (normalizeGame tm g hid aid rnd t :: rest)
      else gameRowsLoop tm nr gs
    | _, _, _, _ => gameRowsLoop tm nr gs

/-- `not g.get("complete") and "round" in g`: the record is an unplayed
game carrying a round number. -/
def isUpcoming (g : RawGame) : Bool :=
  (match g.complete with
   | some n => n == 0
   | none => true) && g.round.isSome

/-- Minimum of a list of rounds (the list is nonempty at every use site,
matching Python's `min` on a nonempty generator). -/
def minNext : List Int → Int
  | [] => 0
  | r :: rs => rs.foldl min r

/-- `next_round = min(g["round"] for g in upcoming_games)`. -/
def nextRound (data : List RawGame) : Int :=
  minNext ((data.filter isUpcoming).filterMap (fun g => g.round))

/-- Body of `fetch_squiggle_games` once the games payload has been
parsed: select the earliest round containing an unplayed game, then
normalise that round's records.  A `ValueError` from date parsing
propagates to the surrounding `except`, which returns an empty frame. -/
def fetch_squiggle_games_body (tm : TeamMap) (data : List RawGame) : List GameRow :=
  if (data.filter isUpcoming).isEmpty then []
  else
    match gameRowsLoop tm (nextRound data) data with
    | Except.ok rows => rows
    | Except.error _ => []

/-- `fetch_squiggle_games`, with the HTTP response made explicit:
non-200 status or empty content gives an empty frame, a payload whose
JSON decoding raises (`none`) gives an empty frame via the `except`. -/
def fetch_squiggle_games (tm : TeamMap) (status : Int) (hasContent : Bool)
    (payload : Option (List RawGame)) : List GameRow :=
  if status != 200 || !hasContent then []
  else
    match payload with
    | none => []
    | some data => fetch_squiggle_games_body tm data

/-- A raw JSON tip record from the `tips` endpoint. -/
structure RawTip where
  gameid : Option Int
  round : Option Int
  hteamid : Option Int
  ateamid : Option Int
  tip : Option String
  confidence : Option Rat
deriving DecidableEq

/-- A normalised tip row as appended to `tips_list`. -/
structure TipRow where
  gameId : Option Int
  round : Option Int
  homeTeamId : Int
  awayTeamId : Int
  tip : String
  confidence : Option Rat
deriving DecidableEq

/-- A tips `DataFrame`.  `pd.DataFrame(tips_list)` with an empty
`tips_list` (and `pd.DataFrame()` from the error paths) has no columns
at all, which is observable downstream: that frame is `TipsDF.empty`. -/
inductive TipsDF where
  | empty
  | table (rows : List TipRow)
deriving DecidableEq

/-- One iteration of the `for tip in tips_data` loop: records missing
`hteamid`, `ateamid` or `gameid` are skipped. -/
def normalizeTip (t : RawTip) : Option TipRow :=
  match t.hteamid, t.ateamid, t.gameid with
  | some hid, some aid, some gid =>
      some { gameId := some gid
             round := t.round
             homeTeamId := hid
             awayTeamId := aid
             tip := t.tip.getD ""
             confidence := t.confidence }
  | _, _, _ => none

/-- Body of `fetch_squiggle_tips` once the payload has been parsed. -/
def fetch_squiggle_tips_body (data : List RawTip) : TipsDF :=
  let rows := data.filterMap normalizeTip
  if rows.isEmpty then TipsDF.empty else TipsDF.table rows

/-- `fetch_squiggle_tips` with the HTTP response made explicit. -/
def fetch_squiggle_tips (status : Int) (hasContent : Bool)
    (payload : Option (List RawTip)) : TipsDF :=
  if status != 200 || !hasContent then TipsDF.empty
  else
    match payload with
    | none => TipsDF.empty
    | some data => fetch_squiggle_tips_body data

/-- A merged game-with-tip row, the unit the filter and summary stages
operate on.  `tip`/`confidence` are `none` on the unmatched side of the
left join (pandas fills `NaN`). -/
structure MergedRow where
  gameId : Option Int
  round : Int
  startTime : Int
  venue : String
  homeTeam : String
  awayTeam : String
  homeTeamId : Int
  awayTeamId : Int
  homeOdds : Option Rat
  awayOdds : Option Rat
  matchPreview : String
  tip : Option String
  confidence : Option Rat
deriving DecidableEq

/-- Attach tip data (or its absence) to a game row. -/
def mergeRow (g : GameRow) (tp : Option String) (cf : Option Rat) : MergedRow :=
  { gameId := g.gameId
    round := g.round
    startTime := g.startTime
    venue := g.venue
    homeTeam := g.homeTeam
    awayTeam := g.awayTeam
    homeTeamId := g.homeTeamId
    awayTeamId := g.awayTeamId
    homeOdds := g.homeOdds
    awayOdds := g.awayOdds
    matchPreview := g.matchPreview
    tip := tp
    confidence := cf }

/-- Join condition of `pd.merge(..., on="Game ID")`. -/
def tipMatches (g : GameRow) (t : TipRow) : Bool :=
  t.gameId == g.gameId

/-- The rows a single game contributes to the left merge: one row per
matching tip, or a single row with absent tip fields when no tip
matches. -/
def leftJoinGame (g : GameRow) (ts : List TipRow) : List MergedRow :=
  let ms := ts.filter (tipMatches g)
  if ms.isEmpty then [mergeRow g none none]
  else ms.map (fun t => mergeRow g (some t.tip) t.confidence)

/-- The pandas exception raised by selecting the tip columns from a
column-less frame. -/
inductive PandasError where
  | keyError
deriving DecidableEq

/-- `merge_games_and_tips`: empty games frame is returned unchanged;
otherwise `tips_df[["Game ID", "Tip", "Confidence"]]` raises `KeyError`
on a column-less tips frame, and the left merge on `Game ID` keeps the
games side, duplicating a game once per matching tip. -/
def merge_games_and_tips (games : List GameRow) (tips : TipsDF) :
    Except PandasError (List MergedRow) :=
  if games.isEmpty then Except.ok []
  else
    match tips with
    | TipsDF.empty => Except.error PandasError.keyError
    | TipsDF.table ts => Except.ok (games.flatMap (fun g => leftJoinGame g ts))

/-- The team filter of the sidebar: `"All"` is `none`, a named team
keeps the rows where it plays at home or away. -/
def teamFilter (sel : Option String) (rows : List MergedRow) : List MergedRow :=
  match sel with
  | none => rows
  | some t => rows.filter (fun r => r.homeTeam == t || r.awayTeam == t)

/-- The confidence filter: `if min_conf > 0: filtered_df =
filtered_df[filtered_df["Confidence"].fillna(0) >= min_conf]`. -/
def confidenceFilter (minConf : Nat) (rows : List MergedRow) : List MergedRow :=
  if 0 < minConf then
    rows.filter (fun r => decide ((minConf : Rat) ≤ r.confidence.getD 0))
  else rows

/-- The upset predicate of
`filtered_df[(filtered_df["Tip"] == filtered_df["Away Team"]) &
(filtered_df["Away Odds"].fillna(0) > 2.5)]`: a `NaN` tip compares
unequal to the away team, absent odds are filled with 0. -/
def isUpset (r : MergedRow) : Bool :=
  (match r.tip with
   | some t => t == r.awayTeam
   | none => false) && decide ((2.5 : Rat) < r.awayOdds.getD 0)

/-- The upset-candidate subset. -/
def upsetsOf (rows : List MergedRow) : List MergedRow :=
  rows.filter isUpset

/-- `filtered_df.dropna(subset=["Confidence"])`. -/
def conf_data (rows : List MergedRow) : List MergedRow :=
  rows.filter (fun r => r.confidence.isSome)

/-- First-occurrence argmax, the semantics of `Series.idxmax`: a later
row replaces the current best only when strictly greater. -/
def firstArgmaxBy (f : MergedRow → Rat) (x : MergedRow) (xs : List MergedRow) : MergedRow :=
  xs.foldl (fun best y => if f best < f y then y else best) x

/-- The Top Tip aggregate: guarded by `if not conf_data.empty`, then
`conf_data.loc[conf_data["Confidence"].idxmax()]`.  `none` models the
guarded-out (placeholder) case. -/
def topPick (rows : List MergedRow) : Option MergedRow :=
  match conf_data rows with
  | [] => none
  | r :: rs => some (firstArgmaxBy (fun x => x.confidence.getD 0) r rs)

/-- The Biggest Upset aggregate: guarded by `if not upsets.empty`, then
`upsets.loc[upsets["Away Odds"].idxmax()]`. -/
def biggestUpset (rows : List MergedRow) : Option MergedRow :=
  match upsetsOf rows with
  | [] => none
  | r :: rs => some (firstArgmaxBy (fun x => x.awayOdds.getD 0) r rs)

/-- Base URL of the team logo assets. -/
def TEAM_LOGO_URL : String :=
  "https://squiggle.com.au/wp-content/themes/squiggle/assets/images/logos/"

/-- Python `str.replace` for a single-character pattern: substitute
every occurrence of `old` by the replacement characters. -/
def pyReplaceChar (old : Char) (new : List Char) : List Char → List Char
  | [] => []
  | c :: cs => (if c = old then new else [c]) ++ pyReplaceChar old new cs

/-- `get_team_logo`:
`team_name.lower().replace(" ", "-").replace("&", "and")` appended to
the base path with an `.svg` suffix. -/
def get_team_logo (team_name : String) : String :=
  let formatted :=
    String.mk (pyReplaceChar '&' ['a', 'n', 'd']
      (pyReplaceChar ' ' ['-'] (team_name.toList.map Char.toLower)))
  TEAM_LOGO_URL ++ formatted ++ ".svg"

/-- Modelled from the spec: the logo URL is the fixed base path followed
by the lower-cased team name with every space replaced by a hyphen and
every `&` replaced by `and`, with an `.svg` suffix.  Used only to
compare against `get_team_logo`. -/
def logo_url_spec (team_name : String) : String :=
  let mapped := (team_name.toList.map Char.toLower).flatMap (fun c =>
    if c = ' ' then ['-'] else if c = '&' then ['a', 'n', 'd'] else [c])
  TEAM_LOGO_URL ++ String.mk mapped ++ ".svg"

/-- Zero-padded two-digit rendering of `f"{n:02}"` (wider numbers keep
all their digits). -/
def pad2 (n : Nat) : String :=
  if n < 10 then "0" ++ toString n else toString n

/-- `format_countdown`, with `datetime.utcnow()` made the explicit
argument `now` and times in `Int` seconds. -/
def format_countdown (start_time now : Int) : String :=
  let delta := start_time - now
  if 0 < delta then
    let total := delta.toNat
    let hours := total / 3600
    let rem := total % 3600
    let minutes := rem / 60
    let seconds := rem % 60
    pad2 hours ++ ":" ++ pad2 minutes ++ ":" ++ pad2 seconds
  else "Kick-off!"

/-- Insert into a sorted list of rounds. -/
def insertSorted (x : Int) : List Int → List Int
  | [] => [x]
  | y :: ys => if x ≤ y then x :: y :: ys else y :: insertSorted x ys

/-- Insertion sort, modelling Python's `sorted`. -/
def sortInts (l : List Int) : List Int :=
  l.foldr insertSorted []

/-- `sorted(all_games["Round"].unique()) if not all_games.empty else []`. -/
def available_rounds (games : List GameRow) : List Int :=
  if games.isEmpty then [] else sortInts (games.map (fun g => g.round)).dedup

/-- Outcome of one render pass of the main script. -/
inductive Render where
  | noRounds
  | errorPage
  | page (top : Option MergedRow) (big : Option MergedRow) (table : List MergedRow)
deriving DecidableEq

/-- The main script after the fetches, at the default widget values
(first round selected, team `"All"`, minimum confidence 0): round
filter, merge, filters, aggregates.  `noRounds` is the
`"No rounds available yet."` branch, `errorPage` the top-level
`except` that catches a pandas exception. -/
def render_main (all_games : List GameRow) (tips : TipsDF) : Render :=
  match (available_rounds all_games).head? with
  | none => Render.noRounds
  | some r =>
    let games_df := all_games.filter (fun g => g.round == r)
    match merge_games_and_tips games_df tips with
    | Except.error _ => Render.errorPage
    | Except.ok combined =>
      let filtered := confidenceFilter 0 (teamFilter none combined)
      Render.page (topPick filtered) (biggestUpset filtered) filtered

/-! ### Sample data used by witnesses -/

/-- A concrete normalised game row. -/
def sampleGame : GameRow :=
  { gameId := some 1
    round := 7
    startTime := 1000
    venue := "MCG"
    homeTeam := "Carlton"
    awayTeam := "Essendon"
    homeTeamId := 3
    awayTeamId := 5
    homeOdds := some 1.8
    awayOdds := some 3
    matchPreview := "No preview available." }

/-- A merged row tipping the away team at odds 3. -/
def sampleUpsetRow : MergedRow := mergeRow sampleGame (some "Essendon") (some 60)

/-- The same row with away odds exactly 2.5. -/
def sampleEdgeRow : MergedRow := { sampleUpsetRow with awayOdds := some 2.5 }

/-- A merged row with confidence 50. -/
def sampleConfRow : MergedRow := mergeRow sampleGame (some "Essendon") (some 50)

/-- A game joined by two tips, for the C1 counterexample. -/
def cexGame : GameRow :=
  { gameId := some 11
    round := 3
    startTime := 500
    venue := "Gabba"
    homeTeam := "Brisbane"
    awayTeam := "Geelong"
    homeTeamId := 2
    awayTeamId := 8
    homeOdds := some 2.1
    awayOdds := some 1.7
    matchPreview := "No preview available." }

/-- First tip matching `cexGame`. -/
def cexTipA : TipRow :=
  { gameId := some 11, round := some 3, homeTeamId := 2, awayTeamId := 8,
    tip := "Brisbane", confidence := some 61 }

/-- Second tip matching `cexGame` (a second source for the same game). -/
def cexTipB : TipRow :=
  { gameId := some 11, round := some 3, homeTeamId := 2, awayTeamId := 8,
    tip := "Geelong", confidence := some 52 }

/-- The game used for the C8 failing input. -/
def crashGame : GameRow :=
  { gameId := some 21
    round := 4
    startTime := 900
    venue := "SCG"
    homeTeam := "Sydney"
    awayTeam := "Richmond"
    homeTeamId := 14
    awayTeamId := 13
    homeOdds := some 1.5
    awayOdds := some 4.2
    matchPreview := "No preview available." }

/-- What a raw record of `fetch_squiggle_games` would become at the
selected round `nr`: `none` when a required key is missing, the round
differs, or the date fails to parse.  Characterises the loop's output
in the claims about the normaliser. -/
def normalizeAt (tm : TeamMap) (nr : Int) (g : RawGame) : Option GameRow :=
  match g.hteamid, g.ateamid, g.date, g.round with
  | some hid, some aid, some ds, some rnd =>
    if rnd = nr then (fromisoformat ds).map (normalizeGame tm g hid aid rnd) else none
  | _, _, _, _ => none

/-- A record carrying all required keys and a parseable date. -/
def isValidGameRecord (g : RawGame) : Bool :=
  hasGameKeys g && (fromisoformat (g.date.getD "")).isSome

/-- A valid, incomplete round-1 record. -/
def rawGood : RawGame :=
  { id := some 31
    round := some 1
    hteamid := some 3
    ateamid := some 5
    date := some "2024-03-07 19:30:00"
    venue := some "MCG"
    complete := some 0
    odds := [("3", 1.8), ("5", 3.2)] }

/-- A fully-keyed, incomplete round-1 record whose date is malformed. -/
def rawBadDate : RawGame :=
  { id := some 32
    round := some 1
    hteamid := some 4
    ateamid := some 6
    date := some "not-a-date"
    venue := some "MCG"
    complete := some 0
    odds := [] }

/-- An incomplete round-1 record missing its home team id. -/
def rawNoKey : RawGame :=
  { id := none
    round := some 1
    hteamid := none
    ateamid := some 5
    date := some "2024-03-07 19:30:00"
    venue := none
    complete := some 0
    odds := [] }

/-- A valid, incomplete round-2 record. -/
def rawRound2 : RawGame :=
  { id := some 33
    round := some 2
    hteamid := some 7
    ateamid := some 9
    date := some "2024-03-14 19:30:00"
    venue := some "Gabba"
    complete := some 0
    odds := [] }

/-- A valid round-1 record already marked complete. -/
def rawDone : RawGame :=
  { id := some 34
    round := some 1
    hteamid := some 10
    ateamid := some 12
    date := some "2024-03-01 19:30:00"
    venue := some "MCG"
    complete := some 100
    odds := [] }

/-! ### Helper lemmas -/

lemma pyReplaceChar_append (old : Char) (new : List Char) (l1 l2 : List Char) :
    pyReplaceChar old new (l1 ++ l2) =
      pyReplaceChar old new l1 ++ pyReplaceChar old new l2 := by
  induction l1 with
  | nil => rfl
  | cons c cs ih => simp [pyReplaceChar, ih, List.append_assoc]

lemma replace_space_amp (l : List Char) :
    pyReplaceChar '&' ['a', 'n', 'd'] (pyReplaceChar ' ' ['-'] l) =
      l.flatMap (fun c =>
        if c = ' ' then ['-'] else if c = '&' then ['a', 'n', 'd'] else [c]) := by
  induction l with
  | nil => rfl
  | cons c cs ih =>
    by_cases hs : c = ' '
    · subst hs
      simp [pyReplaceChar, ih]
    · by_cases ha : c = '&'
      · subst ha
        simp [pyReplaceChar, ih]
      · simp [pyReplaceChar, hs, ha, ih]

lemma countdown_shift (s n : Int) :
    format_countdown s n = format_countdown (s - n) 0 := by
  simp [format_countdown]

lemma gameRowsLoop_skip (tm : TeamMap) (nr : Int) (g : RawGame) (gs : List RawGame)
    (h : hasGameKeys g = false) :
    gameRowsLoop tm nr (g :: gs) = gameRowsLoop tm nr gs := by
  cases hh : g.hteamid <;> cases ha : g.ateamid <;> cases hd : g.date <;>
    cases hr : g.round <;>
    first
    | (simp [hasGameKeys, hh, ha, hd, hr] at h; done)
    | ((conv_lhs => rw [gameRowsLoop]); simp [hh, ha, hd, hr])

lemma gameRowsLoop_parse_ok (tm : TeamMap) (nr : Int) :
    ∀ data : List RawGame,
      (∀ g ∈ data, hasGameKeys g = true → g.round = some nr →
        (fromisoformat (g.date.getD "")).isSome = true) →
      gameRowsLoop tm nr data = Except.ok (data.filterMap (normalizeAt tm nr)) := by
  intro data
  induction data with
  | nil => intro _; rfl
  | cons g gs ih =>
    intro hyp
    have hgs := fun x hx h1 h2 => hyp x (List.mem_cons_of_mem g hx) h1 h2
    unfold gameRowsLoop
    cases hh : g.hteamid with
    | none => simp [List.filterMap_cons, normalizeAt, hh, ih hgs]
    | some hid =>
      cases ha : g.ateamid with
      | none => simp [List.filterMap_cons, normalizeAt, hh, ha, ih hgs]
      | some aid =>
        cases hd : g.date with
        | none => simp [List.filterMap_cons, normalizeAt, hh, ha, hd, ih hgs]
        | some ds =>
          cases hr : g.round with
          | none => simp [List.filterMap_cons, normalizeAt, hh, ha, hd, hr, ih hgs]
          | some rnd =>
            by_cases hrnd : rnd = nr
            · subst hrnd
              have hkeys : hasGameKeys g = true := by
                simp [hasGameKeys, hh, ha, hd, hr]
              have hps := hyp g (List.mem_cons_self g gs) hkeys hr
              rw [hd] at hps
              simp only [Option.getD_some] at hps
              obtain ⟨t, ht⟩ := Option.isSome_iff_exists.mp hps
              simp [List.filterMap_cons, normalizeAt, hh, ha, hd, hr, ht, ih hgs]
            · simp [List.filterMap_cons, normalizeAt, hh, ha, hd, hr, hrnd, ih hgs]

lemma gameRowsLoop_err (tm : TeamMap) (nr : Int) :
    ∀ (data : List RawGame) (g : RawGame), g ∈ data → hasGameKeys g = true →
      g.round = some nr → fromisoformat (g.date.getD "") = none →
      gameRowsLoop tm nr data = Except.error () := by
  intro data
  induction data with
  | nil => intro g hg _ _ _; exact absurd hg (List.not_mem_nil g)
  | cons a as ih =>
    intro g hg hkeys hround hdate
    rcases List.mem_cons.mp hg with rfl | hmem
    · simp only [hasGameKeys, Bool.and_eq_true] at hkeys
      obtain ⟨⟨⟨h1, h2⟩, h3⟩, h4⟩ := hkeys
      obtain ⟨hid, hh⟩ := Option.isSome_iff_exists.mp h1
      obtain ⟨aid, ha⟩ := Option.isSome_iff_exists.mp h2
      obtain ⟨ds, hd⟩ := Option.isSome_iff_exists.mp h3
      rw [hd] at hdate
      simp only [Option.getD_some] at hdate
      unfold gameRowsLoop
      simp [hh, ha, hd, hround, hdate]
    · have ihres := ih g hmem hkeys hround hdate
      unfold gameRowsLoop
      cases hh : a.hteamid with
      | none => simpa [hh] using ihres
      | some hid =>
        cases ha : a.ateamid with
        | none => simpa [hh, ha] using ihres
        | some aid =>
          cases hd : a.date with
          | none => simpa [hh, ha, hd] using ihres
          | some ds =>
            cases hr : a.round with
            | none => simpa [hh, ha, hd, hr] using ihres
            | some rnd =>
              by_cases hrnd : rnd = nr
              · subst hrnd
                cases hf : fromisoformat ds with
                | none => simp [hh, ha, hd, hr, hf]
                | some t => simp [hh, ha, hd, hr, hf, ihres]
              · simpa [hh, ha, hd, hr, hrnd] using ihres

lemma filterMap_normalizeAt_length (tm : TeamMap) (nr : Int) :
    ∀ data : List RawGame,
      (∀ g ∈ data, hasGameKeys g = true → g.round = some nr →
        (fromisoformat (g.date.getD "")).isSome = true) →
      (data.filterMap (normalizeAt tm nr)).length =
        (data.filter (fun g => hasGameKeys g && decide (g.round = some nr))).length := by
  intro data
  induction data with
  | nil => intro _; rfl
  | cons g gs ih =>
    intro hyp
    have hgs := fun x hx h1 h2 => hyp x (List.mem_cons_of_mem g hx) h1 h2
    cases hh : g.hteamid with
    | none => simp [List.filterMap_cons, List.filter_cons, normalizeAt, hasGameKeys, hh, ih hgs]
    | some hid =>
      cases ha : g.ateamid with
      | none =>
        simp [List.filterMap_cons, List.filter_cons, normalizeAt, hasGameKeys, hh, ha, ih hgs]
      | some aid =>
        cases hd : g.date with
        | none =>
          simp [List.filterMap_cons, List.filter_cons, normalizeAt, hasGameKeys, hh, ha, hd,
            ih hgs]
        | some ds =>
          cases hr : g.round with
          | none =>
            simp [List.filterMap_cons, List.filter_cons, normalizeAt, hasGameKeys, hh, ha, hd,
              hr, ih hgs]
          | some rnd =>
            by_cases hrnd : rnd = nr
            · subst hrnd
              have hkeys : hasGameKeys g = true := by
                simp [hasGameKeys, hh, ha, hd, hr]
              have hps := hyp g (List.mem_cons_self g gs) hkeys hr
              rw [hd] at hps
              simp only [Option.getD_some] at hps
              obtain ⟨t, ht⟩ := Option.isSome_iff_exists.mp hps
              simp [List.filterMap_cons, List.filter_cons, normalizeAt, hasGameKeys, hh, ha,
                hd, hr, ht, ih hgs]
            · simp [List.filterMap_cons, List.filter_cons, normalizeAt, hasGameKeys, hh, ha,
                hd, hr, hrnd, ih hgs]

lemma gameRowsLoop_round (tm : TeamMap) (nr : Int) :
    ∀ (data : List RawGame) (rows : List GameRow),
      gameRowsLoop tm nr data = Except.ok rows → ∀ r ∈ rows, r.round = nr := by
  intro data
  induction data with
  | nil =>
    intro rows h r hr
    unfold gameRowsLoop at h
    simp only [Except.ok.injEq] at h
    subst h
    simp at hr
  | cons g gs ih =>
    intro rows h r hr
    unfold gameRowsLoop at h
    cases hh : g.hteamid with
    | none =>
      rw [hh] at h
      exact ih rows h r hr
    | some hid =>
      cases ha : g.ateamid with
      | none =>
        rw [hh, ha] at h
        exact ih rows h r hr
      | some aid =>
        cases hd : g.date with
        | none =>
          rw [hh, ha, hd] at h
          exact ih rows h r hr
        | some ds =>
          cases hr2 : g.round with
          | none =>
            rw [hh, ha, hd, hr2] at h
            exact ih rows h r hr
          | some rnd =>
            simp only [hh, ha, hd, hr2] at h
            by_cases hrnd : rnd = nr
            · rw [if_pos hrnd] at h
              cases hf : fromisoformat ds with
              | none =>
                rw [hf] at h
                exact absurd h (by simp)
              | some t =>
                rw [hf] at h
                cases hloop : gameRowsLoop tm nr gs with
                | error e =>
                  rw [hloop] at h
                  exact absurd h (by simp)
                | ok rest =>
                  rw [hloop] at h
                  simp only [Except.ok.injEq] at h
                  subst h
                  rcases List.mem_cons.mp hr with rfl | hrest
                  · simpa [normalizeGame] using hrnd
                  · exact ih rest hloop r hrest
            · rw [if_neg hrnd] at h
              exact ih rows h r hr

lemma foldl_min_le_init (l : List Int) : ∀ a : Int, l.foldl min a ≤ a := by
  induction l with
  | nil => intro a; exact le_refl a
  | cons x xs ih => intro a; exact le_trans (ih (min a x)) (min_le_left a x)

lemma foldl_min_le_mem (l : List Int) : ∀ (a r : Int), r ∈ l → l.foldl min a ≤ r := by
  induction l with
  | nil => intro a r hr; exact absurd hr (List.not_mem_nil r)
  | cons x xs ih =>
    intro a r hr
    rcases List.mem_cons.mp hr with rfl | hmem
    · exact le_trans (foldl_min_le_init xs (min a r)) (min_le_right a r)
    · exact ih (min a x) r hmem

lemma foldl_min_mem (l : List Int) : ∀ a : Int, l.foldl min a = a ∨ l.foldl min a ∈ l := by
  induction l with
  | nil => intro a; exact Or.inl rfl
  | cons x xs ih =>
    intro a
    rw [List.foldl_cons]
    rcases ih (min a x) with h | h
    · rcases min_choice a x with hm | hm
      · exact Or.inl (by rw [h, hm])
      · exact Or.inr (by rw [h, hm]; exact List.mem_cons_self x xs)
    · exact Or.inr (List.mem_cons_of_mem x h)

lemma minNext_mem (l : List Int) (h : l ≠ []) : minNext l ∈ l := by
  cases l with
  | nil => exact absurd rfl h
  | cons r rs =>
    show rs.foldl min r ∈ r :: rs
    rcases foldl_min_mem rs r with h1 | h1
    · rw [h1]; exact List.mem_cons_self r rs
    · exact List.mem_cons_of_mem r h1

lemma minNext_le (l : List Int) : ∀ r ∈ l, minNext l ≤ r := by
  cases l with
  | nil => intro r hr; exact absurd hr (List.not_mem_nil r)
  | cons x xs =>
    intro r hr
    rcases List.mem_cons.mp hr with rfl | hmem
    · exact foldl_min_le_init xs r
    · exact foldl_min_le_mem xs x r hmem

lemma firstArgmaxBy_cons (f : MergedRow → Rat) (x y : MergedRow) (ys : List MergedRow) :
    firstArgmaxBy f x (y :: ys) = firstArgmaxBy f (if f x < f y then y else x) ys := rfl

lemma firstArgmaxBy_mem (f : MergedRow → Rat) :
    ∀ (xs : List MergedRow) (x : MergedRow), firstArgmaxBy f x xs ∈ x :: xs := by
  intro xs
  induction xs with
  | nil => intro x; exact List.mem_cons_self x []
  | cons y ys ih =>
    intro x
    rw [firstArgmaxBy_cons]
    rcases List.mem_cons.mp (ih (if f x < f y then y else x)) with h | h
    · rw [h]
      by_cases hc : f x < f y
      · rw [if_pos hc]
        exact List.mem_cons_of_mem x (List.mem_cons_self y ys)
      · rw [if_neg hc]
        exact List.mem_cons_self x (y :: ys)
    · exact List.mem_cons_of_mem x (List.mem_cons_of_mem y h)

lemma firstArgmaxBy_le (f : MergedRow → Rat) :
    ∀ (xs : List MergedRow) (x y : MergedRow), y ∈ x :: xs →
      f y ≤ f (firstArgmaxBy f x xs) := by
  intro xs
  induction xs with
  | nil =>
    intro x y hy
    rcases List.mem_cons.mp hy with rfl | h
    · exact le_refl _
    · exact absurd h (List.not_mem_nil y)
  | cons z zs ih =>
    intro x y hy
    rw [firstArgmaxBy_cons]
    have hxb : f x ≤ f (if f x < f z then z else x) := by
      by_cases hc : f x < f z
      · rw [if_pos hc]; exact le_of_lt hc
      · rw [if_neg hc]
    have hzb : f z ≤ f (if f x < f z then z else x) := by
      by_cases hc : f x < f z
      · rw [if_pos hc]
      · rw [if_neg hc]; exact le_of_not_lt hc
    have hmono := ih (if f x < f z then z else x) (if f x < f z then z else x)
      (List.mem_cons_self _ zs)
    rcases List.mem_cons.mp hy with rfl | h
    · exact le_trans hxb hmono
    · rcases List.mem_cons.mp h with rfl | h2
      · exact le_trans hzb hmono
      · exact ih (if f x < f z then z else x) y (List.mem_cons_of_mem _ h2)

/-! ### Claims -/

/-- C4: the upset predicate is a pure function of the row: a row is an
upset iff its tip equals its away team and its away odds (absent odds
treated as 0) are strictly greater than 2.5; with tip = away team and
away odds 3 the row is an upset, and with away odds exactly 2.5 it is
not. -/
theorem upset_predicate_c4 :
    (∀ r : MergedRow, isUpset r = true ↔
      (r.tip = some r.awayTeam ∧ (2.5 : Rat) < r.awayOdds.getD 0)) ∧
    (∀ r : MergedRow, r.tip = some r.awayTeam → r.awayOdds = some 3 →
      isUpset r = true) ∧
    (∀ r : MergedRow, r.awayOdds = some 2.5 → isUpset r = false) := by
  refine ⟨?_, ?_, ?_⟩
  · intro r
    cases ht : r.tip with
    | none => simp [isUpset, ht]
    | some t => simp [isUpset, ht]
  · intro r h1 h2
    simp [isUpset, h1, h2]
    norm_num
  · intro r h
    cases ht : r.tip <;> simp [isUpset, ht, h]

/-- Witness for C4 at a concrete row. -/
theorem upset_predicate_c4_witness :
    isUpset sampleUpsetRow = true ∧ isUpset sampleEdgeRow = false :=
  ⟨upset_predicate_c4.2.1 sampleUpsetRow rfl rfl,
   upset_predicate_c4.2.2 sampleEdgeRow rfl⟩

/-- C5: the confidence filter is monotone in the threshold: for
`t1 ≤ t2`, every row kept at `t2` is kept at `t1`, and the row count at
`t2` is at most the row count at `t1`. -/
theorem confidenceFilter_monotone_c5 :
    ∀ (rows : List MergedRow) (t1 t2 : Nat), t1 ≤ t2 →
      (∀ r ∈ confidenceFilter t2 rows, r ∈ confidenceFilter t1 rows) ∧
      (confidenceFilter t2 rows).length ≤ (confidenceFilter t1 rows).length := by
  intro rows t1 t2 h
  by_cases h1 : 0 < t1
  · have h2 : 0 < t2 := lt_of_lt_of_le h1 h
    have himp : ∀ r : MergedRow,
        decide ((t2 : Rat) ≤ r.confidence.getD 0) = true →
        decide ((t1 : Rat) ≤ r.confidence.getD 0) = true := by
      intro r hr
      have hr' := of_decide_eq_true hr
      have hle : (t1 : Rat) ≤ (t2 : Rat) := by exact_mod_cast h
      exact decide_eq_true (le_trans hle hr')
    constructor
    · intro r hr
      simp only [confidenceFilter, if_pos h1, if_pos h2] at *
      rcases List.mem_filter.mp hr with ⟨hmem, hp⟩
      exact List.mem_filter.mpr ⟨hmem, himp r hp⟩
    · simp only [confidenceFilter, if_pos h1, if_pos h2]
      have key :
          List.filter (fun r => decide ((t2 : Rat) ≤ r.confidence.getD 0))
            (List.filter (fun r => decide ((t1 : Rat) ≤ r.confidence.getD 0)) rows) =
          List.filter (fun r => decide ((t2 : Rat) ≤ r.confidence.getD 0)) rows := by
        rw [List.filter_filter]
        apply List.filter_congr
        intro x hx
        cases hp : decide ((t2 : Rat) ≤ x.confidence.getD 0) with
        | false => simp [hp]
        | true => simp [hp, himp x hp]
      rw [← key]
      exact List.length_filter_le _ _
  · have e1 : confidenceFilter t1 rows = rows := by
      simp [confidenceFilter, h1]
    constructor
    · intro r hr
      rw [e1]
      unfold confidenceFilter at hr
      split at hr
      · exact (List.mem_filter.mp hr).1
      · exact hr
    · rw [e1]
      unfold confidenceFilter
      split
      · exact List.length_filter_le _ _
      · exact le_refl _

/-- Witness for C5 at a concrete row set and thresholds 10 ≤ 60. -/
theorem confidenceFilter_monotone_c5_witness :
    (confidenceFilter 60 [sampleConfRow]).length ≤
      (confidenceFilter 10 [sampleConfRow]).length :=
  (confidenceFilter_monotone_c5 [sampleConfRow] 10 60 (by norm_num)).2

/-- C6: a start time 1 h 2 min 3 s ahead of `now` renders as
`"01:02:03"`; a start time at or before `now` renders as
`"Kick-off!"`; and any future start time renders as the remaining
seconds split into hours / minutes / seconds, each zero-padded to two
digits. -/
theorem format_countdown_c6 :
    (∀ now : Int, format_countdown (now + 3723) now = "01:02:03") ∧
    (∀ start now : Int, start ≤ now → format_countdown start now = "Kick-off!") ∧
    (∀ start now : Int, now < start →
      ∃ h m s : Nat, m < 60 ∧ s < 60 ∧
        format_countdown start now = pad2 h ++ ":" ++ pad2 m ++ ":" ++ pad2 s ∧
        h * 3600 + m * 60 + s = (start - now).toNat) := by
  refine ⟨?_, ?_, ?_⟩
  · intro now
    have h : now + 3723 - now = (3723 : Int) := by ring
    rw [countdown_shift, h]
    rfl
  · intro s n h
    have hn : ¬ (0 < s - n) := by omega
    simp [format_countdown, hn]
  · intro s n h
    have hpos : 0 < s - n := by omega
    refine ⟨(s - n).toNat / 3600, (s - n).toNat % 3600 / 60, (s - n).toNat % 60,
      ?_, ?_, ?_, ?_⟩
    · have : (s - n).toNat % 3600 < 3600 := Nat.mod_lt _ (by norm_num)
      omega
    · exact Nat.mod_lt _ (by norm_num)
    · simp only [format_countdown, hpos, if_true]
      rw [Nat.mod_mod_of_dvd _ (by norm_num : (60 : ℕ) ∣ 3600)]
    · omega

/-- Witness for C6 at two concrete times. -/
theorem format_countdown_c6_witness :
    format_countdown (0 + 3723) 0 = "01:02:03" ∧
      format_countdown 0 5 = "Kick-off!" :=
  ⟨format_countdown_c6.1 0, format_countdown_c6.2.1 0 5 (by norm_num)⟩

/-- C7: the logo URL is the fixed base path followed by the lower-cased
team name with spaces replaced by hyphens and `&` by `and`, with an
`.svg` suffix; `"Gold Coast"` and `"Brisbane & Lions"` map to the
expected URLs. -/
theorem get_team_logo_c7 :
    (∀ s : String, get_team_logo s = logo_url_spec s) ∧
    get_team_logo "Gold Coast" =
      "https://squiggle.com.au/wp-content/themes/squiggle/assets/images/logos/gold-coast.svg" ∧
    get_team_logo "Brisbane & Lions" =
      "https://squiggle.com.au/wp-content/themes/squiggle/assets/images/logos/brisbane-and-lions.svg" := by
  refine ⟨?_, ?_, ?_⟩
  · intro s
    simp only [get_team_logo, logo_url_spec]
    rw [replace_space_amp]
  · rfl
  · rfl

/-- One game's contribution to the merge has one row per matching tip,
with a single unmatched row when no tip matches. -/
lemma leftJoinGame_length (g : GameRow) (ts : List TipRow) :
    (leftJoinGame g ts).length = max 1 (ts.filter (tipMatches g)).length := by
  unfold leftJoinGame
  cases hms : ts.filter (tipMatches g) with
  | nil => simp
  | cons t rest => simp [Nat.max_eq_right (Nat.succ_le_succ (Nat.zero_le _))]

/-- With the tip columns present the merge never raises and returns the
flat map of per-game joins. -/
lemma merge_table_eq (games : List GameRow) (ts : List TipRow) :
    merge_games_and_tips games (TipsDF.table ts) =
      Except.ok (games.flatMap (fun g => leftJoinGame g ts)) := by
  cases games with
  | nil => rfl
  | cons g gs => rfl

/-- C1 (amended): on a tips table that has the tip columns, the merge is
left-outer with the games side preserved: every game contributes
`max 1 k` rows where `k` is its number of matching tips (so the merged
row count equals the games row count exactly when no game has more than
one matching tip), every game appears in the output, and a game with no
matching tip carries absent `Tip` and `Confidence` fields. -/
theorem merge_left_outer_c1 :
    ∀ (games : List GameRow) (ts : List TipRow),
      merge_games_and_tips games (TipsDF.table ts) =
        Except.ok (games.flatMap (fun g => leftJoinGame g ts)) ∧
      (games.flatMap (fun g => leftJoinGame g ts)).length =
        (games.map (fun g => max 1 (ts.filter (tipMatches g)).length)).sum ∧
      (∀ g ∈ games, ts.filter (tipMatches g) = [] →
        mergeRow g none none ∈ games.flatMap (fun g => leftJoinGame g ts)) ∧
      (∀ g ∈ games, ∃ tp cf,
        mergeRow g tp cf ∈ games.flatMap (fun g => leftJoinGame g ts)) := by
  intro games ts
  refine ⟨merge_table_eq games ts, ?_, ?_, ?_⟩
  · induction games with
    | nil => rfl
    | cons g gs ih => simp [List.flatMap_cons, leftJoinGame_length, ih]
  · intro g hg hfil
    apply List.mem_flatMap.mpr
    exact ⟨g, hg, by simp [leftJoinGame, hfil]⟩
  · intro g hg
    cases hms : ts.filter (tipMatches g) with
    | nil =>
      exact ⟨none, none, List.mem_flatMap.mpr ⟨g, hg, by simp [leftJoinGame, hms]⟩⟩
    | cons t rest =>
      refine ⟨some t.tip, t.confidence, List.mem_flatMap.mpr ⟨g, hg, ?_⟩⟩
      simp only [leftJoinGame, hms, List.isEmpty_cons, if_false, Bool.false_eq_true]
      exact List.mem_map.mpr ⟨t, List.mem_cons_self t rest, rfl⟩

/-- Witness for C1 at a concrete game and tip. -/
theorem merge_left_outer_c1_witness :
    merge_games_and_tips [sampleGame]
        (TipsDF.table [{ gameId := some 1, round := some 7, homeTeamId := 3,
                         awayTeamId := 5, tip := "Essendon", confidence := some 60 }]) =
      Except.ok ([sampleGame].flatMap (fun g =>
        leftJoinGame g [{ gameId := some 1, round := some 7, homeTeamId := 3,
                          awayTeamId := 5, tip := "Essendon", confidence := some 60 }])) :=
  (merge_left_outer_c1 [sampleGame]
    [{ gameId := some 1, round := some 7, homeTeamId := 3, awayTeamId := 5,
       tip := "Essendon", confidence := some 60 }]).1

/-- Counterexample to C1 as stated: one game with two matching tips
merges into two rows, so the merged row count (2) differs from the
games row count (1). -/
theorem merge_left_outer_c1_counterexample :
    merge_games_and_tips [cexGame] (TipsDF.table [cexTipA, cexTipB]) =
      Except.ok [mergeRow cexGame (some "Brisbane") (some 61),
                 mergeRow cexGame (some "Geelong") (some 52)] ∧
    [mergeRow cexGame (some "Brisbane") (some 61),
     mergeRow cexGame (some "Geelong") (some 52)].length = 2 ∧
    ([cexGame] : List GameRow).length = 1 :=
  ⟨rfl, rfl, rfl⟩

/-- C8 (failing case): the tips fetcher does return an empty frame on a
non-200 status, an undecodable payload, or an empty tip list — but that
empty frame has no columns, so `merge_games_and_tips` raises `KeyError`
on a nonempty games table and the render pass ends in the top-level
error handler instead of proceeding with the table. -/
theorem empty_tips_merge_crash_c8 :
    fetch_squiggle_tips 500 true (some []) = TipsDF.empty ∧
    fetch_squiggle_tips 200 false (some []) = TipsDF.empty ∧
    fetch_squiggle_tips 200 true none = TipsDF.empty ∧
    fetch_squiggle_tips 200 true (some []) = TipsDF.empty ∧
    merge_games_and_tips [crashGame] TipsDF.empty =
      Except.error PandasError.keyError ∧
    render_main [crashGame] TipsDF.empty = Render.errorPage :=
  ⟨rfl, rfl, rfl, rfl, rfl, rfl⟩

/-- C2 (amended): a record missing a required key (`hteamid`,
`ateamid`, `date`, `round`) is individually and silently dropped by the
normalisation loop, and when every fully-keyed record of the selected
round has a parseable date the output row count equals the count of
those records; but a fully-keyed record of the selected round whose
date string is malformed raises inside the loop, so the surrounding
handler returns an empty table — one bad date empties the whole
batch. -/
theorem normalizer_drop_c2 :
    (∀ (tm : TeamMap) (nr : Int) (g : RawGame) (gs : List RawGame),
      hasGameKeys g = false →
      gameRowsLoop tm nr (g :: gs) = gameRowsLoop tm nr gs) ∧
    (∀ (tm : TeamMap) (nr : Int) (data : List RawGame),
      (∀ g ∈ data, hasGameKeys g = true → g.round = some nr →
        (fromisoformat (g.date.getD "")).isSome = true) →
      ∃ rows, gameRowsLoop tm nr data = Except.ok rows ∧
        rows.length =
          (data.filter (fun g => hasGameKeys g && decide (g.round = some nr))).length) ∧
    (∀ (tm : TeamMap) (data : List RawGame) (g : RawGame),
      g ∈ data → hasGameKeys g = true → g.round = some (nextRound data) →
      fromisoformat (g.date.getD "") = none →
      fetch_squiggle_games_body tm data = []) := by
  refine ⟨gameRowsLoop_skip, ?_, ?_⟩
  · intro tm nr data hyp
    exact ⟨data.filterMap (normalizeAt tm nr), gameRowsLoop_parse_ok tm nr data hyp,
      filterMap_normalizeAt_length tm nr data hyp⟩
  · intro tm data g hg hkeys hround hdate
    unfold fetch_squiggle_games_body
    by_cases hup : (data.filter isUpcoming).isEmpty
    · rw [if_pos hup]
    · rw [if_neg hup, gameRowsLoop_err tm (nextRound data) data g hg hkeys hround hdate]

/-- Witness for C2: a record missing its home team id is skipped while
the rest of the batch survives, and a single malformed date empties the
output. -/
theorem normalizer_drop_c2_witness :
    gameRowsLoop [] 1 [rawNoKey, rawGood] = gameRowsLoop [] 1 [rawGood] ∧
    fetch_squiggle_games_body [] [rawBadDate] = [] :=
  ⟨normalizer_drop_c2.1 [] 1 rawNoKey [rawGood] rfl,
   normalizer_drop_c2.2.2 [] [rawBadDate] rawBadDate (List.mem_cons_self _ _) rfl rfl rfl⟩

/-- Counterexample to C2 as stated: a batch of one valid record and one
fully-keyed record with a malformed date normalises to zero rows, not
to the one valid record. -/
theorem normalizer_drop_c2_counterexample :
    fetch_squiggle_games_body [] [rawGood, rawBadDate] = [] ∧
    ([rawGood, rawBadDate].filter isValidGameRecord).length = 1 :=
  ⟨rfl, rfl⟩

/-- C3: when the response contains at least one incomplete game with a
round number, the fetcher selects the minimum round among those games
(it is one of their rounds and a lower bound on all of them), every
returned row carries that round, and — when the fully-keyed records of
that round all have parseable dates — the returned table is exactly the
normalisation of the records of that round, excluding every other
round. -/
theorem round_autoselect_c3 :
    ∀ (tm : TeamMap) (data : List RawGame),
      data.filter isUpcoming ≠ [] →
      (nextRound data ∈ (data.filter isUpcoming).filterMap (fun g => g.round) ∧
        ∀ r ∈ (data.filter isUpcoming).filterMap (fun g => g.round), nextRound data ≤ r) ∧
      (∀ row ∈ fetch_squiggle_games_body tm data, row.round = nextRound data) ∧
      ((∀ g ∈ data, hasGameKeys g = true → g.round = some (nextRound data) →
          (fromisoformat (g.date.getD "")).isSome = true) →
        fetch_squiggle_games_body tm data =
          data.filterMap (normalizeAt tm (nextRound data))) := by
  intro tm data hne
  have hne' : ¬((data.filter isUpcoming).isEmpty = true) := by
    simp [List.isEmpty_iff, hne]
  have hfm : (data.filter isUpcoming).filterMap (fun g => g.round) ≠ [] := by
    obtain ⟨g, hg⟩ := List.exists_mem_of_ne_nil _ hne
    have hup : isUpcoming g = true := (List.mem_filter.mp hg).2
    have hrs : g.round.isSome = true := by
      simp only [isUpcoming, Bool.and_eq_true] at hup
      exact hup.2
    obtain ⟨rv, hrv⟩ := Option.isSome_iff_exists.mp hrs
    exact List.ne_nil_of_mem (List.mem_filterMap.mpr ⟨g, hg, hrv⟩)
  refine ⟨⟨minNext_mem _ hfm, minNext_le _⟩, ?_, ?_⟩
  · intro row hrow
    unfold fetch_squiggle_games_body at hrow
    rw [if_neg hne'] at hrow
    cases hloop : gameRowsLoop tm (nextRound data) data with
    | ok rows =>
      rw [hloop] at hrow
      exact gameRowsLoop_round tm (nextRound data) data rows hloop row hrow
    | error e =>
      rw [hloop] at hrow
      simp at hrow
  · intro hyp
    unfold fetch_squiggle_games_body
    rw [if_neg hne', gameRowsLoop_parse_ok tm (nextRound data) data hyp]

/-- Witness for C3: with one incomplete round-2 game and one finished
round-1 game, round 2 is auto-selected and only its games are
returned. -/
theorem round_autoselect_c3_witness :
    fetch_squiggle_games_body [] [rawRound2, rawDone] =
      [rawRound2, rawDone].filterMap (normalizeAt [] (nextRound [rawRound2, rawDone])) ∧
    nextRound [rawRound2, rawDone] = 2 :=
  ⟨(round_autoselect_c3 [] [rawRound2, rawDone] (by decide)).2.2 (by decide), rfl⟩

/-- C9: the Top Tip and Biggest Upset aggregates are evaluated only
behind emptiness guards — the placeholder (`none`) is produced when the
confidence or upset subset is empty, otherwise the aggregate is a
member of the subset maximising the respective key; and with no games
there are no rounds, so the render shows the no-data branch. -/
theorem summary_guards_c9 :
    (∀ rows : List MergedRow, conf_data rows = [] → topPick rows = none) ∧
    (∀ rows : List MergedRow, conf_data rows ≠ [] →
      ∃ r, topPick rows = some r ∧ r ∈ conf_data rows ∧
        ∀ x ∈ conf_data rows, x.confidence.getD 0 ≤ r.confidence.getD 0) ∧
    (∀ rows : List MergedRow, upsetsOf rows = [] → biggestUpset rows = none) ∧
    (∀ rows : List MergedRow, upsetsOf rows ≠ [] →
      ∃ r, biggestUpset rows = some r ∧ r ∈ upsetsOf rows ∧
        ∀ x ∈ upsetsOf rows, x.awayOdds.getD 0 ≤ r.awayOdds.getD 0) ∧
    (∀ tips : TipsDF, render_main [] tips = Render.noRounds) := by
  refine ⟨?_, ?_, ?_, ?_, ?_⟩
  · intro rows h
    simp [topPick, h]
  · intro rows h
    obtain ⟨r0, rs, hcd⟩ := List.exists_cons_of_ne_nil h
    refine ⟨firstArgmaxBy (fun x => x.confidence.getD 0) r0 rs, ?_, ?_, ?_⟩
    · simp [topPick, hcd]
    · rw [hcd]
      exact firstArgmaxBy_mem _ rs r0
    · intro x hx
      rw [hcd] at hx
      exact firstArgmaxBy_le (fun x => x.confidence.getD 0) rs r0 x hx
  · intro rows h
    simp [biggestUpset, h]
  · intro rows h
    obtain ⟨r0, rs, hcd⟩ := List.exists_cons_of_ne_nil h
    refine ⟨firstArgmaxBy (fun x => x.awayOdds.getD 0) r0 rs, ?_, ?_, ?_⟩
    · simp [biggestUpset, hcd]
    · rw [hcd]
      exact firstArgmaxBy_mem _ rs r0
    · intro x hx
      rw [hcd] at hx
      exact firstArgmaxBy_le (fun x => x.awayOdds.getD 0) rs r0 x hx
  · intro tips
    rfl

/-- Witness for C9 at empty inputs. -/
theorem summary_guards_c9_witness :
    topPick [] = none ∧ render_main [] (TipsDF.table []) = Render.noRounds :=
  ⟨summary_guards_c9.1 [] rfl, summary_guards_c9.2.2.2.2 (TipsDF.table [])⟩

/-- C10: when every game record is marked complete or lacks a round
number, the fetcher returns an empty table, even though the records may
be valid and fully keyed. -/
theorem all_complete_empty_c10 :
    ∀ (tm : TeamMap) (data : List RawGame),
      (∀ g ∈ data, g.complete.getD 0 ≠ 0 ∨ g.round = none) →
      fetch_squiggle_games_body tm data = [] := by
  intro tm data hyp
  have hfil : data.filter isUpcoming = [] := by
    rw [List.filter_eq_nil_iff]
    intro g hg
    rcases hyp g hg with h | h
    · cases hc : g.complete with
      | none =>
        rw [hc] at h
        simp at h
      | some n =>
        rw [hc] at h
        simp only [Option.getD_some] at h
        simp [isUpcoming, hc, h]
    · simp [isUpcoming, h]
  have hup : (data.filter isUpcoming).isEmpty = true := by
    rw [hfil]
    rfl
  unfold fetch_squiggle_games_body
  rw [if_pos hup]

/-- Witness for C10: one valid, fully-keyed but completed game yields an
empty table. -/
theorem all_complete_empty_c10_witness :
    fetch_squiggle_games_body [] [rawDone] = [] ∧
    isValidGameRecord rawDone = true :=
  ⟨all_complete_empty_c10 [] [rawDone] (by
    intro g hg
    rw [List.mem_singleton] at hg
    subst hg
    left
    decide), rfl⟩

end AFLTipping
